import Mathlib

/-!
Verification development for the maihaohuo backend (backend/app/main.py).

The service is a single-process FastAPI app over SQLite: score submission,
a paginated leaderboard, report submission with an optional data-URL image,
report listing, and password-gated audit/delete moderation.

Python strings are modelled as lists of Unicode code points (`PyStr`),
uploaded files as an association list from filename to byte list, and the
SQLite tables as Lean lists of row structures.  Every handler becomes a pure
function from the explicit state (database, uploads directory) and the
request data (headers, payload, current server time, generated timestamp and
random suffix) to a response together with the new state.  `HTTPException`
becomes the `Resp.http` constructor and the `APIResponse(ok=False, ...)`
envelope becomes `Resp.err`.
-/

/-- A Python `str`: a sequence of Unicode code points. -/
abbrev PyStr := List Char

/-- A Python `bytes` value: a sequence of byte values. -/
abbrev Bytes := List Nat

/-- The flat uploads directory: filenames paired with file contents. -/
abbrev Uploads := List (PyStr × Bytes)

/-- Python `str.lower()`, applied code point by code point. -/
def pyLower (s : PyStr) : PyStr := s.map Char.toLower

/-- Embedding of `contains_mgc` (main.py lines 92–101): returns `False` for
falsy (empty) text, otherwise lowercases the text and scans the word list,
skipping falsy (empty) words and testing `w.lower() in lower`.  Python's
`in` on strings is substring containment, i.e. `List.IsInfix` on the code
points. -/
def contains_mgc (text : PyStr) (mgc_words : List PyStr) : Bool :=
  if text = [] then false
  else
    let lower := pyLower text
    mgc_words.any fun w =>
      if w = [] then false
      else decide (pyLower w <:+: lower)

/-- Spec-side predicate, following the claim wording: the word `w` occurs as
a case-insensitive substring of `text`. -/
def occursCaseInsensitive (w text : PyStr) : Prop :=
  pyLower w <:+: pyLower text

/-- `REPORT_UPLOAD_PWD = "123"` (main.py line 18). -/
def REPORT_UPLOAD_PWD : PyStr := "123".data

/-- `REPORT_ADMIN_PWD = "123"` (main.py line 19). -/
def REPORT_ADMIN_PWD : PyStr := "123".data

/-- `request.headers.get("X-Report-Pwd", "")`: the header value, or the
empty string when the header is absent. -/
def headerPwd (hdr : Option PyStr) : PyStr := hdr.getD []

/-- Response of a handler: `Resp.ok` is `APIResponse(ok=True, data=...)`,
`Resp.err` is `APIResponse(ok=False, error=msg)`, and `Resp.http` is a
raised `HTTPException(status_code, detail)`. -/
inductive Resp (α : Type) where
  | ok (data : α)
  | err (msg : PyStr)
  | http (status : Nat) (detail : PyStr)
deriving Repr, DecidableEq

/-- Error message of `_require_upload_pwd` (main.py line 224). -/
def uploadPwdMsg : PyStr := "上传密码错误或未提供".data

/-- Error message of `_require_admin_pwd` (main.py line 230). -/
def adminPwdMsg : PyStr := "管理密码错误或未提供".data

/-- Banned-word rejection message of `submit_score` (main.py line 237). -/
def bannedScoreMsg : PyStr := "输入内容含违禁词，请修改".data

/-- Banned-word rejection message of `submit_report` (main.py line 280). -/
def bannedReportMsg : PyStr := "爆料文本含违禁词，请修改".data

/-- A row of the `scores` table. -/
structure ScoreRow where
  id : Int
  player_name : PyStr
  character : PyStr
  score : Int
  found_count : Int
  created_at : Int
deriving Repr, DecidableEq

/-- A row of the `reports` table.  `audited` and `deleted` are the SQLite
integer flags (default 0), `img_data` the stored path or NULL. -/
structure ReportRow where
  id : Int
  text : PyStr
  npc : Option PyStr
  x : Option Int
  y : Option Int
  created_at : Int
  audited : Int
  deleted : Int
  img_data : Option PyStr
deriving Repr, DecidableEq

/-- The SQLite database: the two tables, plus the next AUTOINCREMENT id of
each (SQLite hands out increasing rowids; `cur.lastrowid` is the id of the
row just inserted). -/
structure DB where
  scores : List ScoreRow
  reports : List ReportRow
  nextScoreId : Int
  nextReportId : Int
deriving Repr, DecidableEq

/-- Python `a or b` on an optional integer (`payload.ts or int(time.time())`,
main.py lines 238 and 281): `None` and `0` are both falsy, so they fall back
to the right operand. -/
def pyIntOr (v : Option Int) (dflt : Int) : Int :=
  match v with
  | none => dflt
  | some n => if n = 0 then dflt else n

/-- Python `s or None` on an optional string (`payload.npc or None`,
`img_path or None`, main.py line 290): `None` and the empty string are
falsy and map to `None`. -/
def pyStrOptOrNone (v : Option PyStr) : Option PyStr :=
  match v with
  | none => none
  | some s => if s = [] then none else some s

/-- The `ScoreSubmit` pydantic model (bounds are enforced by the schema and
are not needed by the claims). -/
structure ScoreSubmit where
  playerName : PyStr
  character : PyStr
  score : Int
  foundCount : Int
  ts : Option Int
deriving Repr, DecidableEq

/-- The `ReportSubmit` pydantic model. -/
structure ReportSubmit where
  text : PyStr
  npc : Option PyStr
  x : Option Int
  y : Option Int
  ts : Option Int
  imgData : Option PyStr
deriving Repr, DecidableEq

/-- Environment of one call of `_save_data_url_to_file`: the value of
`int(time.time()*1000)` and of `uuid.uuid4().hex[:8]`. -/
structure FileEnv where
  nowMs : Nat
  randHex : PyStr
deriving Repr, DecidableEq

/-- Drop an expected literal from the front of a string; `none` when the
string does not start with it. -/
def dropPrefixChars : PyStr → PyStr → Option PyStr
  | [], s => some s
  | _ :: _, [] => none
  | p :: ps, c :: cs => if p = c then dropPrefixChars ps cs else none

/-- Embedding of the anchored match `re.match(r'^data:(image/[^;]+);base64,(.+)$', data_url)`
(main.py line 364).  `[^;]+` greedily takes the (non-empty) run of
non-semicolon characters after `data:image/`; then the literal `;base64,`
must follow; `.+` takes one or more non-newline characters and `$` matches
at the end of the string or just before one final newline.  Returns the two
groups: the full MIME type and the base64 payload. -/
def matchDataUrl (s : PyStr) : Option (PyStr × PyStr) :=
  match dropPrefixChars "data:image/".data s with
  | none => none
  | some rest =>
    let sub := rest.takeWhile (· != ';')
    let rest2 := rest.dropWhile (· != ';')
    if sub = [] then none
    else
      match dropPrefixChars ";base64,".data rest2 with
      | none => none
      | some payload0 =>
        let payload := if payload0.getLast? = some '\n' then payload0.dropLast else payload0
        if payload = [] then none
        else if payload.contains '\n' then none
        else some ("image/".data ++ sub, payload)

/-- The `ext_map` dictionary of `_save_data_url_to_file` (main.py lines 370–377). -/
def ext_map : List (PyStr × PyStr) :=
  [("image/jpeg".data, "jpg".data),
   ("image/jpg".data, "jpg".data),
   ("image/png".data, "png".data),
   ("image/webp".data, "webp".data),
   ("image/gif".data, "gif".data),
   ("image/bmp".data, "bmp".data)]

/-- `ext_map.get(mime, 'jpg')` (main.py line 378). -/
def extForMime (mime : PyStr) : PyStr :=
  (ext_map.lookup mime).getD "jpg".data

/-- Value of one base64 alphabet character. -/
def b64CharVal (c : Char) : Option Nat :=
  if 'A' ≤ c ∧ c ≤ 'Z' then some (c.toNat - 65)
  else if 'a' ≤ c ∧ c ≤ 'z' then some (c.toNat - 97 + 26)
  else if '0' ≤ c ∧ c ≤ '9' then some (c.toNat - 48 + 52)
  else if c = '+' then some 62
  else if c = '/' then some 63
  else none

/-- The character loop of CPython's non-strict `binascii.a2b_base64`
(Modules/binascii.c): walk the input with a quad position (0–3), the
leftover bits of the previous character, and a pad counter.  A `=` when the
quad position is at least 2 raises the pad counter and, once position plus
pads reaches 4, ends decoding successfully, discarding the rest; a `=`
earlier in a quad is ignored.  A character outside the alphabet is skipped.
A data character resets the pad counter, shifts its six bits in, and emits
a byte on positions 1, 2 and 3.  Input exhausted mid-quad is
`binascii.Error` (`Incorrect padding` or the length-1 message), modelled as
`none`. -/
def b64Loop : PyStr → Nat → Nat → Nat → Option Bytes
  | [], quad_pos, _, _ => if quad_pos = 0 then some [] else none
  | c :: rest, quad_pos, leftchar, pads =>
    if c = '=' then
      if 2 ≤ quad_pos then
        if 4 ≤ quad_pos + (pads + 1) then some []
        else b64Loop rest quad_pos leftchar (pads + 1)
      else b64Loop rest quad_pos leftchar pads
    else
      match b64CharVal c with
      | none => b64Loop rest quad_pos leftchar pads
      | some v =>
        match quad_pos with
        | 0 => b64Loop rest 1 v 0
        | 1 => (b64Loop rest 2 (v % 16) 0).map fun tl => (leftchar * 4 + v / 16) :: tl
        | 2 => (b64Loop rest 3 (v % 4) 0).map fun tl => (leftchar * 16 + v / 4) :: tl
        | _ => (b64Loop rest 0 0 0).map fun tl => (leftchar * 64 + v) :: tl

/-- `base64.b64decode(b64)` on a `str` argument: the string is first encoded
as ASCII (non-ASCII input raises `ValueError`), then handed to the
non-strict `a2b_base64` loop; any raised error is modelled as `none` (the
caller catches every exception). -/
def b64decode (s : PyStr) : Option Bytes :=
  if s.all (fun c => decide (c.toNat < 128)) then b64Loop s 0 0 0
  else none

/-- The generated upload filename `f"{int(time.time()*1000)}_{uuid.uuid4().hex[:8]}.{ext}"`
(main.py line 385) for the given extension. -/
def fnameOf (env : FileEnv) (ext : PyStr) : PyStr :=
  Nat.toDigits 10 env.nowMs ++ "_".data ++ env.randHex ++ ".".data ++ ext

/-- Embedding of `_save_data_url_to_file` (main.py lines 359–392): falsy
input and a regex mismatch return `None`; otherwise the payload is base64
decoded (a decode error is swallowed by the bare `except` and yields
`None`), written to the uploads directory under the generated name, and the
public path `/uploads/<file>` is returned. -/
def _save_data_url_to_file (env : FileEnv) (uploads : Uploads) (data_url : PyStr) :
    Option PyStr × Uploads :=
  if data_url = [] then (none, uploads)
  else
    match matchDataUrl data_url with
    | none => (none, uploads)
    | some (mimeRaw, b64) =>
      let mime := pyLower mimeRaw
      let ext := extForMime mime
      match b64decode b64 with
      | none => (none, uploads)
      | some raw =>
        let fname := fnameOf env ext
        (some ("/uploads/".data ++ fname), uploads ++ [(fname, raw)])

/-- Embedding of `submit_score` (main.py lines 233–248): banned-word check
on name and character, then insert with `created_at = payload.ts or
int(time.time())` and answer with the fresh rowid. -/
def submit_score (db : DB) (mgc : List PyStr) (payload : ScoreSubmit) (serverTime : Int) :
    Resp Int × DB :=
  if contains_mgc payload.playerName mgc || contains_mgc payload.character mgc then
    (Resp.err bannedScoreMsg, db)
  else
    let created_at := pyIntOr payload.ts serverTime
    let row : ScoreRow :=
      { id := db.nextScoreId, player_name := payload.playerName,
        character := payload.character, score := payload.score,
        found_count := payload.foundCount, created_at := created_at }
    (Resp.ok db.nextScoreId,
     { db with scores := db.scores ++ [row], nextScoreId := db.nextScoreId + 1 })

/-- `ORDER BY score DESC, created_at DESC`: row `a` may be listed before
row `b`. -/
def lbRel (a b : ScoreRow) : Prop :=
  b.score < a.score ∨ (a.score = b.score ∧ b.created_at ≤ a.created_at)

instance : DecidableRel lbRel := fun a b =>
  inferInstanceAs (Decidable (_ ∨ _))

instance : IsTotal ScoreRow lbRel :=
  ⟨fun a b => by
    rcases lt_trichotomy a.score b.score with h | h | h
    · exact Or.inr (Or.inl h)
    · rcases le_total b.created_at a.created_at with h2 | h2
      · exact Or.inl (Or.inr ⟨h, h2⟩)
      · exact Or.inr (Or.inr ⟨h.symm, h2⟩)
    · exact Or.inl (Or.inl h)⟩

instance : IsTrans ScoreRow lbRel :=
  ⟨fun a b c hab hbc => by
    rcases hab with h1 | ⟨h1, h1'⟩ <;> rcases hbc with h2 | ⟨h2, h2'⟩
    · exact Or.inl (h2.trans h1)
    · exact Or.inl (h2 ▸ h1)
    · exact Or.inl (h1 ▸ h2)
    · exact Or.inr ⟨h1.trans h2, h2'.trans h1'⟩⟩

/-- The `{items, total, page, limit}` payload of the two paginated reads. -/
structure PageOut (α : Type) where
  items : List α
  total : Nat
  page : Int
  limit : Int
deriving Repr, DecidableEq

/-- Embedding of `leaderboard` (main.py lines 251–272): clamp `page` to ≥ 1
and `limit` into [1, 50], `total = COUNT(*)` over `scores`, and the page
slice of the rows ordered by score descending then creation time
descending. -/
def leaderboard (db : DB) (page limit : Int) : PageOut ScoreRow :=
  let page1 := max 1 page
  let limit1 := max 1 (min 50 limit)
  let offset := (page1 - 1) * limit1
  let sorted := List.insertionSort lbRel db.scores
  { items := (sorted.drop offset.toNat).take limit1.toNat,
    total := db.scores.length, page := page1, limit := limit1 }

/-- The image-persist step of `submit_report` (main.py lines 285–287):
`_save_data_url_to_file` runs only when `payload.imgData` is truthy
(present and non-empty), else no path and no file. -/
def savedOf (uploads : Uploads) (env : FileEnv) (imgData : Option PyStr) :
    Option PyStr × Uploads :=
  match imgData with
  | some s => if s = [] then (none, uploads) else _save_data_url_to_file env uploads s
  | none => (none, uploads)

/-- Embedding of `submit_report` (main.py lines 275–295): upload-password
check, banned-word check on the text, optional image persist, insert, and
answer with the fresh rowid.  `audited` and `deleted` take their column
default 0. -/
def submit_report (db : DB) (uploads : Uploads) (mgc : List PyStr) (hdr : Option PyStr)
    (payload : ReportSubmit) (serverTime : Int) (env : FileEnv) :
    Resp Int × DB × Uploads :=
  if headerPwd hdr ≠ REPORT_UPLOAD_PWD then
    (Resp.http 403 uploadPwdMsg, db, uploads)
  else if contains_mgc payload.text mgc then
    (Resp.err bannedReportMsg, db, uploads)
  else
    let created_at := pyIntOr payload.ts serverTime
    let saved := savedOf uploads env payload.imgData
    let row : ReportRow :=
      { id := db.nextReportId, text := payload.text,
        npc := pyStrOptOrNone payload.npc, x := payload.x, y := payload.y,
        created_at := created_at, audited := 0, deleted := 0,
        img_data := pyStrOptOrNone saved.1 }
    (Resp.ok db.nextReportId,
     { db with reports := db.reports ++ [row], nextReportId := db.nextReportId + 1 },
     saved.2)

/-- `ORDER BY created_at DESC`: report `a` may be listed before report `b`. -/
def listRel (a b : ReportRow) : Prop := b.created_at ≤ a.created_at

instance : DecidableRel listRel := fun a b =>
  inferInstanceAs (Decidable (_ ≤ _))

instance : IsTotal ReportRow listRel :=
  ⟨fun a b => le_total b.created_at a.created_at⟩

instance : IsTrans ReportRow listRel :=
  ⟨fun _ _ _ hab hbc => hbc.trans hab⟩

/-- Embedding of `list_reports` (main.py lines 298–319): `total` is
`SELECT COUNT(*) FROM reports` — over the whole table, with no `deleted`
filter — while the items are the page slice of the rows with `deleted = 0`
ordered by creation time descending. -/
def list_reports (db : DB) (page limit : Int) : PageOut ReportRow :=
  let page1 := max 1 page
  let limit1 := max 1 (min 50 limit)
  let offset := (page1 - 1) * limit1
  let sorted := List.insertionSort listRel (db.reports.filter fun r => decide (r.deleted = 0))
  { items := (sorted.drop offset.toNat).take limit1.toNat,
    total := db.reports.length, page := page1, limit := limit1 }

/-- Row transformation of `UPDATE reports SET audited = ? WHERE id = ?`
(main.py line 333). -/
def auditRowUpdate (i : Int) (aud : Bool) (r : ReportRow) : ReportRow :=
  if r.id = i then { r with audited := if aud then 1 else 0 } else r

/-- Embedding of `audit_report` (main.py lines 327–337): admin-password
check, then the UPDATE; the response carries no data. -/
def audit_report (db : DB) (hdr : Option PyStr) (i : Int) (aud : Bool) :
    Resp Unit × DB :=
  if headerPwd hdr ≠ REPORT_ADMIN_PWD then (Resp.http 403 adminPwdMsg, db)
  else (Resp.ok (), { db with reports := db.reports.map (auditRowUpdate i aud) })

/-- Row transformation of `UPDATE reports SET deleted = 1 WHERE id = ?`
(main.py line 350). -/
def deleteRowUpdate (i : Int) (r : ReportRow) : ReportRow :=
  if r.id = i then { r with deleted := 1 } else r

/-- Embedding of `delete_report` (main.py lines 344–354). -/
def delete_report (db : DB) (hdr : Option PyStr) (i : Int) : Resp Unit × DB :=
  if headerPwd hdr ≠ REPORT_ADMIN_PWD then (Resp.http 403 adminPwdMsg, db)
  else (Resp.ok (), { db with reports := db.reports.map (deleteRowUpdate i) })

/-- One inbound request of the service (the exposed operations). -/
inductive Op where
  | score (payload : ScoreSubmit) (serverTime : Int)
  | report (hdr : Option PyStr) (payload : ReportSubmit) (serverTime : Int) (env : FileEnv)
  | audit (hdr : Option PyStr) (i : Int) (aud : Bool)
  | del (hdr : Option PyStr) (i : Int)
  | listR (page limit : Int)
  | board (page limit : Int)

/-- Effect of one request on the persistent state (database and uploads
directory); the two reads leave it unchanged. -/
def applyOp (mgc : List PyStr) (op : Op) (st : DB × Uploads) : DB × Uploads :=
  match op with
  | Op.score p t => ((submit_score st.1 mgc p t).2, st.2)
  | Op.report hdr p t env =>
    let r := submit_report st.1 st.2 mgc hdr p t env
    (r.2.1, r.2.2)
  | Op.audit hdr i a => ((audit_report st.1 hdr i a).2, st.2)
  | Op.del hdr i => ((delete_report st.1 hdr i).2, st.2)
  | Op.listR _ _ => st
  | Op.board _ _ => st

/-- Well-formedness of the database: every stored report id is below the
next AUTOINCREMENT id (SQLite hands out strictly increasing rowids). -/
def WF (db : DB) : Prop := ∀ r ∈ db.reports, r.id < db.nextReportId

/-- Spec-side shape, following the claim wording: a well-formed data URL
`data:<mime>;base64,<payload>`. -/
def specWellFormedDataUrl (s : PyStr) : Prop :=
  ∃ mime payload, mime ≠ ([] : PyStr) ∧ payload ≠ ([] : PyStr) ∧
    s = "data:".data ++ mime ++ ";base64,".data ++ payload

/-- A soft-deleted report row, for concrete checks. -/
def rowDel : ReportRow :=
  { id := 1, text := ['t'], npc := none, x := none, y := none,
    created_at := 10, audited := 0, deleted := 1, img_data := none }

/-- A database whose only report is soft-deleted. -/
def dbDel : DB := { scores := [], reports := [rowDel], nextScoreId := 1, nextReportId := 2 }

/-- The empty database as created by `_init_db`. -/
def dbEmpty : DB := { scores := [], reports := [], nextScoreId := 1, nextReportId := 1 }

/-- An active (not deleted) report row, for concrete checks. -/
def rowOne : ReportRow :=
  { id := 1, text := ['t'], npc := none, x := none, y := none,
    created_at := 10, audited := 0, deleted := 0, img_data := none }

/-- A database with one active report. -/
def dbOne : DB := { scores := [], reports := [rowOne], nextScoreId := 1, nextReportId := 2 }

/-- A request carrying the correct password header. -/
def hdrOk : Option PyStr := some "123".data

/-- A concrete file-name environment. -/
def envW : FileEnv := { nowMs := 1700000000000, randHex := "abcd1234".data }

/-- A concrete clean score submission with a nonzero client timestamp. -/
def spW : ScoreSubmit :=
  { playerName := ['A'], character := ['B'], score := 10, foundCount := 0, ts := some 7 }

/-- A concrete clean report submission with no timestamp and no image. -/
def rpW : ReportSubmit :=
  { text := ['h', 'i'], npc := none, x := none, y := none, ts := none, imgData := none }

/-- A concrete report submission with a valid png data URL. -/
def rpImg : ReportSubmit :=
  { text := ['h', 'i'], npc := none, x := none, y := none, ts := some 3,
    imgData := some "data:image/png;base64,AAAA".data }

/-- A well-formed data URL whose MIME type is not an image type. -/
def cexUrl : PyStr := "data:text/plain;base64,AAAA".data

/-- A concrete report submission carrying the non-image data URL. -/
def rpNonImg : ReportSubmit :=
  { text := ['h', 'i'], npc := none, x := none, y := none, ts := some 3,
    imgData := some cexUrl }

/-- A concrete report submission whose text contains a banned word. -/
def rpBan : ReportSubmit :=
  { text := "badword".data, npc := none, x := none, y := none, ts := some 3, imgData := none }

/-- A concrete one-word banned list. -/
def mgcW : List PyStr := ["bad".data]

/-- C1: the banned-word filter returns true exactly when some non-empty word
of the list occurs as a case-insensitive substring of the text, and returns
false on empty text, for every word list. -/
theorem contains_mgc_spec (text : PyStr) (mgc : List PyStr) :
    (contains_mgc text mgc = true ↔ ∃ w ∈ mgc, w ≠ [] ∧ occursCaseInsensitive w text) ∧
    contains_mgc [] mgc = false := by
  have hnil : ∀ w : PyStr, w ≠ [] → ¬ occursCaseInsensitive w [] := by
    intro w hne hocc
    exact hne (List.map_eq_nil_iff.mp (List.infix_nil.mp hocc))
  refine ⟨?_, by simp [contains_mgc]⟩
  by_cases ht : text = []
  · subst ht
    simp only [contains_mgc, if_pos rfl]
    constructor
    · intro h; exact absurd h (by simp)
    · rintro ⟨w, _, hne, hocc⟩
      exact ((hnil w hne) hocc).elim
  · simp only [contains_mgc, if_neg ht, List.any_eq_true]
    constructor
    · rintro ⟨w, hw, hcond⟩
      by_cases hwe : w = []
      · rw [if_pos hwe] at hcond; exact absurd hcond (by simp)
      · rw [if_neg hwe, decide_eq_true_iff] at hcond
        exact ⟨w, hw, hwe, hcond⟩
    · rintro ⟨w, hw, hne, hocc⟩
      refine ⟨w, hw, ?_⟩
      rw [if_neg hne, decide_eq_true_iff]
      exact hocc

/-- C6: the leaderboard clamps `page` to ≥ 1 and `limit` into [1, 50],
returns at most `limit` items, the items are the requested page slice of
the score rows sorted by score descending then creation time descending
(so any earlier item relates to any later one by `lbRel`), and `total` is
the number of score rows. -/
theorem leaderboard_spec (db : DB) (page limit : Int) :
    (leaderboard db page limit).page = max 1 page ∧
    (leaderboard db page limit).limit = max 1 (min 50 limit) ∧
    1 ≤ (leaderboard db page limit).limit ∧
    (leaderboard db page limit).limit ≤ 50 ∧
    (leaderboard db page limit).items.length ≤ (leaderboard db page limit).limit.toNat ∧
    (leaderboard db page limit).total = db.scores.length ∧
    List.Pairwise lbRel (leaderboard db page limit).items ∧
    ∃ sorted : List ScoreRow, sorted.Perm db.scores ∧ List.Pairwise lbRel sorted ∧
      (leaderboard db page limit).items =
        (sorted.drop ((max 1 page - 1) * max 1 (min 50 limit)).toNat).take
          (max 1 (min 50 limit)).toNat := by
  have hs : List.Pairwise lbRel (List.insertionSort lbRel db.scores) :=
    List.sorted_insertionSort lbRel db.scores
  refine ⟨rfl, rfl, le_max_left _ _, max_le (by norm_num) (min_le_left _ _), ?_, rfl, ?_, ?_⟩
  · simpa [leaderboard] using
      List.length_take_le (max 1 (min 50 limit)).toNat
        ((List.insertionSort lbRel db.scores).drop ((max 1 page - 1) * max 1 (min 50 limit)).toNat)
  · exact List.Pairwise.sublist ((List.take_sublist _ _).trans (List.drop_sublist _ _)) hs
  · exact ⟨List.insertionSort lbRel db.scores,
      List.perm_insertionSort lbRel db.scores, hs, rfl⟩

/-- C2 counterexample: in a database whose only report is soft-deleted, the
listing returns no items, yet `total` is 1 while the number of non-deleted
reports is 0 — `total` counts the whole table, deleted rows included. -/
theorem list_reports_total_cex :
    (list_reports dbDel 1 20).items = [] ∧
    (list_reports dbDel 1 20).total = 1 ∧
    (dbDel.reports.filter fun r => decide (r.deleted = 0)).length = 0 := by
  refine ⟨?_, rfl, rfl⟩
  decide

/-- C2 (amended): the reports listing returns only rows with `deleted = 0`,
ordered by creation time descending, under the leaderboard's pagination
contract, but its `total` is the row count of the whole `reports` table,
soft-deleted rows included. -/
theorem list_reports_spec (db : DB) (page limit : Int) :
    (list_reports db page limit).page = max 1 page ∧
    (list_reports db page limit).limit = max 1 (min 50 limit) ∧
    1 ≤ (list_reports db page limit).limit ∧
    (list_reports db page limit).limit ≤ 50 ∧
    (list_reports db page limit).items.length ≤ (list_reports db page limit).limit.toNat ∧
    (list_reports db page limit).total = db.reports.length ∧
    (∀ r ∈ (list_reports db page limit).items, r.deleted = 0) ∧
    List.Pairwise listRel (list_reports db page limit).items ∧
    ∃ sorted : List ReportRow,
      sorted.Perm (db.reports.filter fun r => decide (r.deleted = 0)) ∧
      List.Pairwise listRel sorted ∧
      (list_reports db page limit).items =
        (sorted.drop ((max 1 page - 1) * max 1 (min 50 limit)).toNat).take
          (max 1 (min 50 limit)).toNat := by
  have hs : List.Pairwise listRel
      (List.insertionSort listRel (db.reports.filter fun r => decide (r.deleted = 0))) :=
    List.sorted_insertionSort listRel _
  refine ⟨rfl, rfl, le_max_left _ _, max_le (by norm_num) (min_le_left _ _), ?_, rfl, ?_, ?_, ?_⟩
  · simpa [list_reports] using
      List.length_take_le (max 1 (min 50 limit)).toNat
        ((List.insertionSort listRel (db.reports.filter fun r => decide (r.deleted = 0))).drop
          ((max 1 page - 1) * max 1 (min 50 limit)).toNat)
  · intro r hr
    have hsub : (list_reports db page limit).items.Sublist
        (List.insertionSort listRel (db.reports.filter fun r => decide (r.deleted = 0))) :=
      (List.take_sublist _ _).trans (List.drop_sublist _ _)
    have hmem : r ∈ List.insertionSort listRel
        (db.reports.filter fun r => decide (r.deleted = 0)) := hsub.mem hr
    have hmem2 : r ∈ db.reports.filter fun r => decide (r.deleted = 0) :=
      (List.perm_insertionSort listRel _).mem_iff.mp hmem
    have := List.of_mem_filter hmem2
    exact of_decide_eq_true this
  · exact List.Pairwise.sublist ((List.take_sublist _ _).trans (List.drop_sublist _ _)) hs
  · exact ⟨List.insertionSort listRel (db.reports.filter fun r => decide (r.deleted = 0)),
      List.perm_insertionSort listRel _, hs, rfl⟩

/-- C8: auditing and deleting are idempotent: applying the same operation
twice in a row leaves every report row in the same state as applying it
once, for every database state, header, id, and audited value. -/
theorem audit_delete_idempotent (db : DB) (hdr : Option PyStr) (i : Int) (aud : Bool) :
    (audit_report (audit_report db hdr i aud).2 hdr i aud).2 = (audit_report db hdr i aud).2 ∧
    (delete_report (delete_report db hdr i).2 hdr i).2 = (delete_report db hdr i).2 := by
  have hau : ∀ r, auditRowUpdate i aud (auditRowUpdate i aud r) = auditRowUpdate i aud r := by
    intro r
    by_cases h : r.id = i
    · simp [auditRowUpdate, h]
    · simp [auditRowUpdate, h]
  have hde : ∀ r, deleteRowUpdate i (deleteRowUpdate i r) = deleteRowUpdate i r := by
    intro r
    by_cases h : r.id = i
    · simp [deleteRowUpdate, h]
    · simp [deleteRowUpdate, h]
  by_cases hp : headerPwd hdr ≠ REPORT_ADMIN_PWD
  · constructor
    · simp [audit_report, if_pos hp]
    · simp [delete_report, if_pos hp]
  · constructor
    · simp only [audit_report, if_neg hp, List.map_map]
      have h2 : db.reports.map (auditRowUpdate i aud ∘ auditRowUpdate i aud) =
          db.reports.map (auditRowUpdate i aud) :=
        List.map_congr_left fun r _ => hau r
      rw [h2]
    · simp only [delete_report, if_neg hp, List.map_map]
      have h2 : db.reports.map (deleteRowUpdate i ∘ deleteRowUpdate i) =
          db.reports.map (deleteRowUpdate i) :=
        List.map_congr_left fun r _ => hde r
      rw [h2]

/-- C10: with the correct admin password, audit and delete answer `ok` for
every id, and when no report row carries the id, the database state is
unchanged. -/
theorem audit_delete_any_id (db : DB) (hdr : Option PyStr) (i : Int) (aud : Bool)
    (hpwd : headerPwd hdr = REPORT_ADMIN_PWD)
    (hmiss : ∀ r ∈ db.reports, r.id ≠ i) :
    (∀ j : Int, (audit_report db hdr j aud).1 = Resp.ok () ∧
      (delete_report db hdr j).1 = Resp.ok ()) ∧
    (audit_report db hdr i aud).2 = db ∧
    (delete_report db hdr i).2 = db := by
  have hp : ¬ headerPwd hdr ≠ REPORT_ADMIN_PWD := by simp [hpwd]
  refine ⟨fun j => ⟨by simp [audit_report, hp], by simp [delete_report, hp]⟩, ?_, ?_⟩
  · simp only [audit_report, if_neg hp]
    have h3 : db.reports.map (auditRowUpdate i aud) = db.reports.map id :=
      List.map_congr_left fun r hr => by simp [auditRowUpdate, hmiss r hr]
    rw [h3, List.map_id]
  · simp only [delete_report, if_neg hp]
    have h3 : db.reports.map (deleteRowUpdate i) = db.reports.map id :=
      List.map_congr_left fun r hr => by simp [deleteRowUpdate, hmiss r hr]
    rw [h3, List.map_id]

/-- C10 witness: on the concrete database with one report of id 1, auditing
and deleting id 5 answer `ok` and leave the database unchanged. -/
theorem audit_delete_any_id_witness :
    (audit_report dbOne hdrOk 5 true).1 = Resp.ok () ∧
    (delete_report dbOne hdrOk 5).1 = Resp.ok () ∧
    (audit_report dbOne hdrOk 5 true).2 = dbOne ∧
    (delete_report dbOne hdrOk 5).2 = dbOne :=
  ⟨((audit_delete_any_id dbOne hdrOk 5 true rfl (by decide)).1 5).1,
   ((audit_delete_any_id dbOne hdrOk 5 true rfl (by decide)).1 5).2,
   (audit_delete_any_id dbOne hdrOk 5 true rfl (by decide)).2.1,
   (audit_delete_any_id dbOne hdrOk 5 true rfl (by decide)).2.2⟩

/-- C5: a report submission whose password header is missing or wrong is
answered with the 403 authorization error, and neither the database nor the
uploads directory changes. -/
theorem submit_report_wrong_pwd (db : DB) (uploads : Uploads) (mgc : List PyStr)
    (hdr : Option PyStr) (payload : ReportSubmit) (t : Int) (env : FileEnv)
    (hpwd : headerPwd hdr ≠ REPORT_UPLOAD_PWD) :
    submit_report db uploads mgc hdr payload t env =
      (Resp.http 403 uploadPwdMsg, db, uploads) := by
  simp [submit_report, if_pos hpwd]

/-- C5 witness: a concrete submission with no password header is rejected
with 403 and changes nothing. -/
theorem submit_report_wrong_pwd_witness :
    submit_report dbEmpty [] [] none rpW 5 envW =
      (Resp.http 403 uploadPwdMsg, dbEmpty, []) :=
  submit_report_wrong_pwd dbEmpty [] [] none rpW 5 envW (by decide)

/-- C4: a report submission whose text contains a banned word never inserts
a row and never writes a file, and — when it carries the correct upload
password, so that it reaches the content check at all — it is answered with
the `ok:false` business response, not a transport-level error. -/
theorem banned_report_never_persisted (db : DB) (uploads : Uploads) (mgc : List PyStr)
    (hdr : Option PyStr) (payload : ReportSubmit) (t : Int) (env : FileEnv)
    (hban : contains_mgc payload.text mgc = true) :
    (submit_report db uploads mgc hdr payload t env).2.1 = db ∧
    (submit_report db uploads mgc hdr payload t env).2.2 = uploads ∧
    (headerPwd hdr = REPORT_UPLOAD_PWD →
      (submit_report db uploads mgc hdr payload t env).1 = Resp.err bannedReportMsg) := by
  by_cases hp : headerPwd hdr = REPORT_UPLOAD_PWD
  · have hp' : ¬ headerPwd hdr ≠ REPORT_UPLOAD_PWD := by simp [hp]
    refine ⟨?_, ?_, fun _ => ?_⟩ <;> simp [submit_report, if_neg hp', hban]
  · refine ⟨?_, ?_, fun h => absurd h hp⟩ <;> simp [submit_report, if_pos hp]

/-- C4 witness: a concrete submission whose text contains the banned word
"bad" is answered `ok:false` and inserts nothing. -/
theorem banned_report_never_persisted_witness :
    (submit_report dbEmpty [] mgcW hdrOk rpBan 5 envW).2.1 = dbEmpty ∧
    (submit_report dbEmpty [] mgcW hdrOk rpBan 5 envW).2.2 = ([] : Uploads) ∧
    (submit_report dbEmpty [] mgcW hdrOk rpBan 5 envW).1 = Resp.err bannedReportMsg :=
  ⟨(banned_report_never_persisted dbEmpty [] mgcW hdrOk rpBan 5 envW (by decide)).1,
   (banned_report_never_persisted dbEmpty [] mgcW hdrOk rpBan 5 envW (by decide)).2.1,
   (banned_report_never_persisted dbEmpty [] mgcW hdrOk rpBan 5 envW (by decide)).2.2 rfl⟩

/-- C9 counterexample: a score submission that supplies the client timestamp
`ts = 0` is accepted, but the stored creation time is the server time 5, not
the supplied 0 — Python's `payload.ts or int(time.time())` treats 0 as
absent. -/
theorem created_at_ts_zero_cex :
    ({ playerName := ['A'], character := ['B'], score := 1, foundCount := 0,
       ts := some 0 } : ScoreSubmit).ts = some 0 ∧
    (submit_score dbEmpty []
        { playerName := ['A'], character := ['B'], score := 1, foundCount := 0, ts := some 0 }
        5).1 = Resp.ok 1 ∧
    (submit_score dbEmpty []
        { playerName := ['A'], character := ['B'], score := 1, foundCount := 0, ts := some 0 }
        5).2.scores.map ScoreRow.created_at = [5] ∧
    (5 : Int) ≠ 0 := by
  refine ⟨rfl, ?_, ?_, by decide⟩ <;> decide

/-- C9 (amended): for every accepted score or report submission, the stored
creation timestamp equals the client-supplied `ts` when a nonzero `ts` was
supplied, and equals the server time when `ts` is absent or zero. -/
theorem created_at_or_fallback (db : DB) (uploads : Uploads) (mgc : List PyStr)
    (sp : ScoreSubmit) (rp : ReportSubmit) (hdr : Option PyStr) (t : Int) (env : FileEnv)
    (hs1 : contains_mgc sp.playerName mgc = false)
    (hs2 : contains_mgc sp.character mgc = false)
    (hr1 : headerPwd hdr = REPORT_UPLOAD_PWD)
    (hr2 : contains_mgc rp.text mgc = false) :
    (∃ row : ScoreRow, (submit_score db mgc sp t).2.scores = db.scores ++ [row] ∧
      (∀ n, sp.ts = some n → n ≠ 0 → row.created_at = n) ∧
      ((sp.ts = none ∨ sp.ts = some 0) → row.created_at = t)) ∧
    (∃ row : ReportRow,
      (submit_report db uploads mgc hdr rp t env).2.1.reports = db.reports ++ [row] ∧
      (∀ n, rp.ts = some n → n ≠ 0 → row.created_at = n) ∧
      ((rp.ts = none ∨ rp.ts = some 0) → row.created_at = t)) := by
  have hp' : ¬ headerPwd hdr ≠ REPORT_UPLOAD_PWD := by simp [hr1]
  constructor
  · refine ⟨{ id := db.nextScoreId, player_name := sp.playerName,
              character := sp.character, score := sp.score,
              found_count := sp.foundCount,
              created_at := pyIntOr sp.ts t }, ?_, ?_, ?_⟩
    · simp [submit_score, hs1, hs2]
    · intro n hn hnz
      simp [pyIntOr, hn, hnz]
    · rintro (h | h) <;> simp [pyIntOr, h]
  · refine ⟨{ id := db.nextReportId, text := rp.text, npc := pyStrOptOrNone rp.npc,
              x := rp.x, y := rp.y, created_at := pyIntOr rp.ts t,
              audited := 0, deleted := 0,
              img_data := pyStrOptOrNone (savedOf uploads env rp.imgData).1 }, ?_, ?_, ?_⟩
    · simp [submit_report, hp', hr2]
    · intro n hn hnz
      simp [pyIntOr, hn, hnz]
    · rintro (h | h) <;> simp [pyIntOr, h]

/-- C9 witness: with server time 9, the concrete score submission carrying
`ts = 7` stores 7, and the concrete report submission carrying no `ts`
stores 9. -/
theorem created_at_or_fallback_witness :
    (∃ row : ScoreRow, (submit_score dbEmpty [] spW 9).2.scores = dbEmpty.scores ++ [row] ∧
      (∀ n, spW.ts = some n → n ≠ 0 → row.created_at = n) ∧
      ((spW.ts = none ∨ spW.ts = some 0) → row.created_at = 9)) ∧
    (∃ row : ReportRow,
      (submit_report dbEmpty [] [] hdrOk rpW 9 envW).2.1.reports = dbEmpty.reports ++ [row] ∧
      (∀ n, rpW.ts = some n → n ≠ 0 → row.created_at = n) ∧
      ((rpW.ts = none ∨ rpW.ts = some 0) → row.created_at = 9)) :=
  created_at_or_fallback dbEmpty [] [] spW rpW hdrOk 9 envW
    (by decide) (by decide) rfl (by decide)

/-- A successful regex match forces a non-empty input string. -/
theorem matchDataUrl_ne_nil {u : PyStr} {p : PyStr × PyStr}
    (h : matchDataUrl u = some p) : u ≠ [] := by
  intro he
  subst he
  have hnone : matchDataUrl ([] : PyStr) = none := rfl
  rw [hnone] at h
  exact Option.noConfusion h

/-- When the regex matches and the payload decodes, `_save_data_url_to_file`
appends the decoded bytes under the generated filename and returns the
public path. -/
theorem save_ok_of_match (env : FileEnv) (uploads : Uploads) (u mime b64 : PyStr)
    (raw : Bytes) (hm : matchDataUrl u = some (mime, b64))
    (hd : b64decode b64 = some raw) :
    _save_data_url_to_file env uploads u =
      (some ("/uploads/".data ++ fnameOf env (extForMime (pyLower mime))),
       uploads ++ [(fnameOf env (extForMime (pyLower mime)), raw)]) := by
  have hne : u ≠ [] := matchDataUrl_ne_nil hm
  simp [_save_data_url_to_file, hne, hm, hd]

/-- When the regex does not match, `_save_data_url_to_file` is a no-op. -/
theorem save_none_of_nomatch (env : FileEnv) (uploads : Uploads) (u : PyStr)
    (hm : matchDataUrl u = none) :
    _save_data_url_to_file env uploads u = (none, uploads) := by
  by_cases hne : u = []
  · subst hne
    simp [_save_data_url_to_file]
  · simp [_save_data_url_to_file, hne, hm]

/-- When the payload fails to base64-decode, `_save_data_url_to_file` is a
no-op (the bare `except` swallows the error). -/
theorem save_none_of_baddecode (env : FileEnv) (uploads : Uploads) (u mime b64 : PyStr)
    (hm : matchDataUrl u = some (mime, b64)) (hd : b64decode b64 = none) :
    _save_data_url_to_file env uploads u = (none, uploads) := by
  have hne : u ≠ [] := matchDataUrl_ne_nil hm
  simp [_save_data_url_to_file, hne, hm, hd]

/-- Shape of an accepted report submission: the `ok` response with the fresh
rowid, the appended row, and the new uploads directory. -/
theorem submit_report_ok_shape (db : DB) (uploads : Uploads) (mgc : List PyStr)
    (hdr : Option PyStr) (rp : ReportSubmit) (t : Int) (env : FileEnv)
    (hp' : ¬ headerPwd hdr ≠ REPORT_UPLOAD_PWD)
    (hclean : contains_mgc rp.text mgc = false) :
    submit_report db uploads mgc hdr rp t env =
      (Resp.ok db.nextReportId,
       { db with
         reports := db.reports ++
           [{ id := db.nextReportId, text := rp.text, npc := pyStrOptOrNone rp.npc,
              x := rp.x, y := rp.y, created_at := pyIntOr rp.ts t,
              audited := 0, deleted := 0,
              img_data := pyStrOptOrNone (savedOf uploads env rp.imgData).1 }],
         nextReportId := db.nextReportId + 1 },
       (savedOf uploads env rp.imgData).2) := by
  simp [submit_report, hp', hclean]

/-- C3 counterexample: `cexUrl` is a well-formed `data:<mime>;base64,<payload>`
data URL, yet — its MIME type not being `image/*` — the submission carrying
it succeeds with no file written and no image path stored. -/
theorem submit_report_nonimage_cex :
    specWellFormedDataUrl cexUrl ∧
    (submit_report dbEmpty [] [] hdrOk rpNonImg 5 envW).1 = Resp.ok 1 ∧
    (submit_report dbEmpty [] [] hdrOk rpNonImg 5 envW).2.2 = ([] : Uploads) ∧
    (submit_report dbEmpty [] [] hdrOk rpNonImg 5 envW).2.1.reports.map
      ReportRow.img_data = [none] := by
  refine ⟨⟨"text/plain".data, "AAAA".data, by decide, by decide, by decide⟩, ?_, ?_, ?_⟩
  · decide
  · decide
  · decide

/-- C3 (amended): when the image payload matches the code's pattern — a data
URL with an `image/*` MIME type — and its base64 payload decodes, the bytes
are persisted to the uploads directory under the generated filename (with
the extension taken from the MIME map, any unmapped type defaulting to
`jpg`) and the public path is stored in the inserted row; when the pattern
does not match (any non-`image/*` or otherwise malformed data URL) or the
payload fails to decode, the submission still succeeds with no stored image
and no file written. -/
theorem save_data_url_amended (db : DB) (uploads : Uploads) (mgc : List PyStr)
    (hdr : Option PyStr) (rp : ReportSubmit) (t : Int) (env : FileEnv)
    (hpwd : headerPwd hdr = REPORT_UPLOAD_PWD)
    (hclean : contains_mgc rp.text mgc = false) :
    (∀ u mime b64 raw, rp.imgData = some u → matchDataUrl u = some (mime, b64) →
      b64decode b64 = some raw →
      (submit_report db uploads mgc hdr rp t env).1 = Resp.ok db.nextReportId ∧
      (submit_report db uploads mgc hdr rp t env).2.2 =
        uploads ++ [(fnameOf env (extForMime (pyLower mime)), raw)] ∧
      ∃ row : ReportRow,
        (submit_report db uploads mgc hdr rp t env).2.1.reports = db.reports ++ [row] ∧
        row.img_data = some ("/uploads/".data ++ fnameOf env (extForMime (pyLower mime)))) ∧
    (∀ u, rp.imgData = some u → matchDataUrl u = none →
      (submit_report db uploads mgc hdr rp t env).1 = Resp.ok db.nextReportId ∧
      (submit_report db uploads mgc hdr rp t env).2.2 = uploads ∧
      ∃ row : ReportRow,
        (submit_report db uploads mgc hdr rp t env).2.1.reports = db.reports ++ [row] ∧
        row.img_data = none) ∧
    (∀ u mime b64, rp.imgData = some u → matchDataUrl u = some (mime, b64) →
      b64decode b64 = none →
      (submit_report db uploads mgc hdr rp t env).1 = Resp.ok db.nextReportId ∧
      (submit_report db uploads mgc hdr rp t env).2.2 = uploads ∧
      ∃ row : ReportRow,
        (submit_report db uploads mgc hdr rp t env).2.1.reports = db.reports ++ [row] ∧
        row.img_data = none) ∧
    (∀ m : PyStr, ext_map.lookup m = none → extForMime m = "jpg".data) := by
  have hp' : ¬ headerPwd hdr ≠ REPORT_UPLOAD_PWD := by simp [hpwd]
  have hshape := submit_report_ok_shape db uploads mgc hdr rp t env hp' hclean
  refine ⟨?_, ?_, ?_, ?_⟩
  · intro u mime b64 raw hu hm hd
    have hne : u ≠ [] := matchDataUrl_ne_nil hm
    have hsv : savedOf uploads env rp.imgData =
        (some ("/uploads/".data ++ fnameOf env (extForMime (pyLower mime))),
         uploads ++ [(fnameOf env (extForMime (pyLower mime)), raw)]) := by
      simp [savedOf, hu, hne, save_ok_of_match env uploads u mime b64 raw hm hd]
    have hpath : ("/uploads/".data ++ fnameOf env (extForMime (pyLower mime)) : PyStr) ≠ [] := by
      have : ("/uploads/".data : PyStr) ≠ [] := by decide
      simp [this]
    refine ⟨?_, ?_, ?_⟩
    · rw [hshape]
    · rw [hshape, hsv]
    · refine ⟨{ id := db.nextReportId, text := rp.text, npc := pyStrOptOrNone rp.npc,
                x := rp.x, y := rp.y, created_at := pyIntOr rp.ts t, audited := 0,
                deleted := 0,
                img_data := pyStrOptOrNone (savedOf uploads env rp.imgData).1 }, ?_, ?_⟩
      · rw [hshape]
      · simp [hsv, pyStrOptOrNone, hpath]
  · intro u hu hm
    have hsv : savedOf uploads env rp.imgData = (none, uploads) := by
      by_cases hne : u = []
      · subst hne
        simp [savedOf, hu]
      · simp [savedOf, hu, hne, save_none_of_nomatch env uploads u hm]
    refine ⟨?_, ?_, ?_⟩
    · rw [hshape]
    · rw [hshape, hsv]
    · refine ⟨{ id := db.nextReportId, text := rp.text, npc := pyStrOptOrNone rp.npc,
                x := rp.x, y := rp.y, created_at := pyIntOr rp.ts t, audited := 0,
                deleted := 0,
                img_data := pyStrOptOrNone (savedOf uploads env rp.imgData).1 }, ?_, ?_⟩
      · rw [hshape]
      · simp [hsv, pyStrOptOrNone]
  · intro u mime b64 hu hm hd
    have hne : u ≠ [] := matchDataUrl_ne_nil hm
    have hsv : savedOf uploads env rp.imgData = (none, uploads) := by
      simp [savedOf, hu, hne, save_none_of_baddecode env uploads u mime b64 hm hd]
    refine ⟨?_, ?_, ?_⟩
    · rw [hshape]
    · rw [hshape, hsv]
    · refine ⟨{ id := db.nextReportId, text := rp.text, npc := pyStrOptOrNone rp.npc,
                x := rp.x, y := rp.y, created_at := pyIntOr rp.ts t, audited := 0,
                deleted := 0,
                img_data := pyStrOptOrNone (savedOf uploads env rp.imgData).1 }, ?_, ?_⟩
      · rw [hshape]
      · simp [hsv, pyStrOptOrNone]
  · intro m hmm
    simp [extForMime, hmm]

/-- C3 witness: the concrete png data URL `data:image/png;base64,AAAA` is
decoded to three zero bytes, written under the generated name, and the row
stores its public path. -/
theorem save_data_url_amended_witness :
    (submit_report dbEmpty [] [] hdrOk rpImg 5 envW).1 = Resp.ok dbEmpty.nextReportId ∧
    (submit_report dbEmpty [] [] hdrOk rpImg 5 envW).2.2 =
      [] ++ [(fnameOf envW (extForMime (pyLower "image/png".data)), [0, 0, 0])] ∧
    ∃ row : ReportRow,
      (submit_report dbEmpty [] [] hdrOk rpImg 5 envW).2.1.reports =
        dbEmpty.reports ++ [row] ∧
      row.img_data =
        some ("/uploads/".data ++ fnameOf envW (extForMime (pyLower "image/png".data))) :=
  (save_data_url_amended dbEmpty [] [] hdrOk rpImg 5 envW rfl (by decide)).1
    "data:image/png;base64,AAAA".data "image/png".data "AAAA".data [0, 0, 0]
    rfl (by decide) (by decide)

/-- A score submission never touches the reports table or its id counter. -/
theorem submit_score_state (db : DB) (mgc : List PyStr) (p : ScoreSubmit) (t : Int) :
    (submit_score db mgc p t).2.reports = db.reports ∧
    (submit_score db mgc p t).2.nextReportId = db.nextReportId := by
  by_cases h : (contains_mgc p.playerName mgc || contains_mgc p.character mgc) = true
  · simp [submit_score, h]
  · simp [submit_score, h]

/-- The audit row update never changes a row's id. -/
theorem auditRowUpdate_id (i : Int) (aud : Bool) (r : ReportRow) :
    (auditRowUpdate i aud r).id = r.id := by
  by_cases h : r.id = i <;> simp [auditRowUpdate, h]

/-- The audit row update never changes a row's deleted flag. -/
theorem auditRowUpdate_deleted (i : Int) (aud : Bool) (r : ReportRow) :
    (auditRowUpdate i aud r).deleted = r.deleted := by
  by_cases h : r.id = i <;> simp [auditRowUpdate, h]

/-- The delete row update never changes a row's id. -/
theorem deleteRowUpdate_id (i : Int) (r : ReportRow) :
    (deleteRowUpdate i r).id = r.id := by
  by_cases h : r.id = i <;> simp [deleteRowUpdate, h]

/-- The delete row update keeps an already-set deleted flag set. -/
theorem deleteRowUpdate_deleted_of (i : Int) (r : ReportRow) (h : r.deleted = 1) :
    (deleteRowUpdate i r).deleted = 1 := by
  by_cases hh : r.id = i <;> simp [deleteRowUpdate, hh, h]

/-- C7: soft deletion is one-way and non-destructive.  With the correct
admin password, deleting an existing id keeps the table length, leaves a
row with that id and `deleted = 1` in storage, marks every row of that id
deleted, never shows the id in the listing, and no exposed operation —
score or report submission, audit, delete, or either read — ever brings a
deleted id back: the step clause shows that `deleted = 1` for an id (with
the id below the AUTOINCREMENT counter) is preserved by every operation,
together with the row's continued existence. -/
theorem delete_one_way (db : DB) (mgc : List PyStr) (hdr : Option PyStr) (i : Int)
    (hwf : WF db) (hpwd : headerPwd hdr = REPORT_ADMIN_PWD)
    (hex : ∃ r ∈ db.reports, r.id = i) :
    (delete_report db hdr i).2.reports.length = db.reports.length ∧
    (∃ r ∈ (delete_report db hdr i).2.reports, r.id = i ∧ r.deleted = 1) ∧
    (∀ r ∈ (delete_report db hdr i).2.reports, r.id = i → r.deleted = 1) ∧
    i < (delete_report db hdr i).2.nextReportId ∧
    (∀ page limit, ∀ it ∈ (list_reports (delete_report db hdr i).2 page limit).items,
      it.id ≠ i) ∧
    (∀ (op : Op) (st : DB × Uploads),
      i < st.1.nextReportId →
      (∃ r ∈ st.1.reports, r.id = i) →
      (∀ r ∈ st.1.reports, r.id = i → r.deleted = 1) →
      i < (applyOp mgc op st).1.nextReportId ∧
      (∃ r ∈ (applyOp mgc op st).1.reports, r.id = i) ∧
      (∀ r ∈ (applyOp mgc op st).1.reports, r.id = i → r.deleted = 1)) := by
  have hp' : ¬ headerPwd hdr ≠ REPORT_ADMIN_PWD := by simp [hpwd]
  have hdel : (delete_report db hdr i).2 =
      { db with reports := db.reports.map (deleteRowUpdate i) } := by
    simp [delete_report, hp']
  obtain ⟨r0, hr0, hid0⟩ := hex
  have hall : ∀ r ∈ (delete_report db hdr i).2.reports, r.id = i → r.deleted = 1 := by
    intro r hr hri
    rw [hdel] at hr
    obtain ⟨a, ha, rfl⟩ := List.mem_map.mp hr
    by_cases h : a.id = i
    · simp [deleteRowUpdate, h]
    · simp [deleteRowUpdate, h] at hri
  refine ⟨?_, ?_, hall, ?_, ?_, ?_⟩
  · rw [hdel]
    simp
  · rw [hdel]
    exact ⟨deleteRowUpdate i r0, List.mem_map_of_mem _ hr0,
      by simp [deleteRowUpdate, hid0], by simp [deleteRowUpdate, hid0]⟩
  · rw [hdel]
    exact hid0 ▸ hwf r0 hr0
  · intro page limit it hit
    have hsub : (list_reports (delete_report db hdr i).2 page limit).items.Sublist
        (List.insertionSort listRel
          ((delete_report db hdr i).2.reports.filter fun r => decide (r.deleted = 0))) :=
      (List.take_sublist _ _).trans (List.drop_sublist _ _)
    have h1 : it ∈ (delete_report db hdr i).2.reports.filter fun r => decide (r.deleted = 0) :=
      (List.perm_insertionSort listRel _).mem_iff.mp (hsub.mem hit)
    have h2 : it.deleted = 0 := of_decide_eq_true (List.mem_filter.mp h1).2
    have h3 : it ∈ (delete_report db hdr i).2.reports := (List.mem_filter.mp h1).1
    intro heq
    have := hall it h3 heq
    omega
  · rintro op ⟨stdb, stup⟩ hlt ⟨r1, hr1, hid1⟩ hdel1
    cases op with
    | score p t =>
      have hs := submit_score_state stdb mgc p t
      exact ⟨by simpa [applyOp, hs.2] using hlt,
        ⟨r1, by simpa [applyOp, hs.1] using hr1, hid1⟩,
        by simpa [applyOp, hs.1] using hdel1⟩
    | report hdr2 p t env =>
      by_cases hp2 : headerPwd hdr2 ≠ REPORT_UPLOAD_PWD
      · exact ⟨by simpa [applyOp, submit_report, hp2] using hlt,
          ⟨r1, by simpa [applyOp, submit_report, hp2] using hr1, hid1⟩,
          by simpa [applyOp, submit_report, hp2] using hdel1⟩
      · by_cases hb : contains_mgc p.text mgc = true
        · exact ⟨by simpa [applyOp, submit_report, hp2, hb] using hlt,
            ⟨r1, by simpa [applyOp, submit_report, hp2, hb] using hr1, hid1⟩,
            by simpa [applyOp, submit_report, hp2, hb] using hdel1⟩
        · have hshape := submit_report_ok_shape stdb stup mgc hdr2 p t env hp2
            (eq_false_of_ne_true hb)
          refine ⟨?_, ⟨r1, ?_, hid1⟩, ?_⟩
          · simp only [applyOp, hshape]
            exact lt_trans hlt (lt_add_one _)
          · simp only [applyOp, hshape]
            exact List.mem_append_left _ hr1
          · simp only [applyOp, hshape]
            intro r hr hri
            rcases List.mem_append.mp hr with h | h
            · exact hdel1 r h hri
            · rcases List.mem_singleton.mp h with rfl
              have hni : stdb.nextReportId = i := hri
              rw [← hni] at hlt
              exact absurd hlt (lt_irrefl _)
    | audit hdr2 j a =>
      by_cases hp2 : headerPwd hdr2 ≠ REPORT_ADMIN_PWD
      · exact ⟨by simpa [applyOp, audit_report, hp2] using hlt,
          ⟨r1, by simpa [applyOp, audit_report, hp2] using hr1, hid1⟩,
          by simpa [applyOp, audit_report, hp2] using hdel1⟩
      · refine ⟨by simpa [applyOp, audit_report, hp2] using hlt, ?_, ?_⟩
        · refine ⟨auditRowUpdate j a r1, ?_, ?_⟩
          · simp only [applyOp, audit_report, if_neg hp2]
            exact List.mem_map_of_mem _ hr1
          · rw [auditRowUpdate_id]
            exact hid1
        · intro r hr hri
          simp only [applyOp, audit_report, if_neg hp2] at hr
          obtain ⟨b, hb2, rfl⟩ := List.mem_map.mp hr
          rw [auditRowUpdate_deleted]
          rw [auditRowUpdate_id] at hri
          exact hdel1 b hb2 hri
    | del hdr2 j =>
      by_cases hp2 : headerPwd hdr2 ≠ REPORT_ADMIN_PWD
      · exact ⟨by simpa [applyOp, delete_report, hp2] using hlt,
          ⟨r1, by simpa [applyOp, delete_report, hp2] using hr1, hid1⟩,
          by simpa [applyOp, delete_report, hp2] using hdel1⟩
      · refine ⟨by simpa [applyOp, delete_report, hp2] using hlt, ?_, ?_⟩
        · refine ⟨deleteRowUpdate j r1, ?_, ?_⟩
          · simp only [applyOp, delete_report, if_neg hp2]
            exact List.mem_map_of_mem _ hr1
          · rw [deleteRowUpdate_id]
            exact hid1
        · intro r hr hri
          simp only [applyOp, delete_report, if_neg hp2] at hr
          obtain ⟨b, hb2, rfl⟩ := List.mem_map.mp hr
          rw [deleteRowUpdate_id] at hri
          exact deleteRowUpdate_deleted_of j b (hdel1 b hb2 hri)
    | listR page limit =>
      exact ⟨hlt, ⟨r1, hr1, hid1⟩, hdel1⟩
    | board page limit =>
      exact ⟨hlt, ⟨r1, hr1, hid1⟩, hdel1⟩

/-- C7 witness: deleting the single active report of id 1 keeps it in
storage with `deleted = 1`. -/
theorem delete_one_way_witness :
    (delete_report dbOne hdrOk 1).2.reports.length = dbOne.reports.length ∧
    (∃ r ∈ (delete_report dbOne hdrOk 1).2.reports, r.id = 1 ∧ r.deleted = 1) ∧
    (∀ r ∈ (delete_report dbOne hdrOk 1).2.reports, r.id = 1 → r.deleted = 1) :=
  ⟨(delete_one_way dbOne [] hdrOk 1
      (by decide : ∀ r ∈ dbOne.reports, r.id < dbOne.nextReportId) rfl
      ⟨rowOne, by decide, rfl⟩).1,
   (delete_one_way dbOne [] hdrOk 1
      (by decide : ∀ r ∈ dbOne.reports, r.id < dbOne.nextReportId) rfl
      ⟨rowOne, by decide, rfl⟩).2.1,
   (delete_one_way dbOne [] hdrOk 1
      (by decide : ∀ r ∈ dbOne.reports, r.id < dbOne.nextReportId) rfl
      ⟨rowOne, by decide, rfl⟩).2.2.1⟩
